import Mathlib

/-!
Verification development for the QGIS geoprocessing tools repository.

The two scripts under study are `cut_fill_volumes.py` (class
`DEMComparisonTool`, raster difference and cut/fill volume integration)
and `usgs_lidar_download.py` (tile resolution grouping, mosaic
compositing, and the meters-to-feet unit conversion pass).

Rasters are embedded shallowly: a band is a total function from integer
row/column indices to rational sample values, and the GDAL geotransform
is carried as its six rational coefficients.  All Python floats are
modelled as rationals; `int(...)` is truncation toward zero.
-/

namespace QGT

/-- Python `int()` applied to a rational: truncation toward zero. -/
def pyInt (q : ℚ) : ℤ :=
  if q < 0 then -⌊-q⌋ else ⌊q⌋

/-- A GDAL raster handle as read by `cut_fill_volumes.py`: geotransform
coefficients `gt0, gt1, gt3, gt5` (the script never uses the rotation
terms `gt2, gt4`), pixel dimensions, CRS identifier, projection string,
optional nodata sentinel, and the band-1 samples indexed as
`band row col`. -/
structure GDALRaster where
  gt0 : ℚ
  gt1 : ℚ
  gt3 : ℚ
  gt5 : ℚ
  xsize : ℕ
  ysize : ℕ
  crs : String
  proj : String
  nodata : Option ℚ
  band : ℤ → ℤ → ℚ

/-- The quantities produced by `DEMComparisonTool.processAlgorithm`
(`cut_fill_volumes.py` lines 27-78): common-grid parameters, output
raster metadata, the difference array, and the three volumes. -/
structure DiffOutput where
  pixelSize : ℚ
  xMin : ℚ
  yMax : ℚ
  xMax : ℚ
  yMin : ℚ
  width : ℤ
  height : ℤ
  outGt : ℚ × ℚ × ℚ × ℚ × ℚ × ℚ
  outProj : String
  existingData : ℕ → ℕ → ℚ
  proposedData : ℕ → ℕ → ℚ
  difference : ℕ → ℕ → ℚ
  cutVolume : ℚ
  fillVolume : ℚ
  netVolume : ℚ

/-- Errors of the integrator.  The script only ever raises the CRS
mismatch (`cut_fill_volumes.py` lines 24-25); `noOverlap` is listed in
the spec's error taxonomy and is included so that its absence from the
code's behaviour is statable. -/
inductive ProcError where
  | crsMismatch
  | noOverlap
deriving DecidableEq

/-- The arithmetic core of `processAlgorithm` (`cut_fill_volumes.py`
lines 27-78), translated line by line: pixel size is the min of the two
sources' pixel widths, the overlap corners come from the two
geotransforms, output dimensions are `int()`-truncated quotients, the
windows are read at `int()`-truncated offsets, the difference is the
raw cell-wise subtraction (no nodata masking appears in the source),
and the volumes are filtered sums scaled by `cell_area / 27`. -/
def diffCore (e p : GDALRaster) : DiffOutput :=
  let pixel_size := min |e.gt1| |p.gt1|
  let x_min := max e.gt0 p.gt0
  let y_max := min e.gt3 p.gt3
  let x_max := min (e.gt0 + e.gt1 * e.xsize) (p.gt0 + p.gt1 * p.xsize)
  let y_min := max (e.gt3 + e.gt5 * e.ysize) (p.gt3 + p.gt5 * p.ysize)
  let width := pyInt ((x_max - x_min) / pixel_size)
  let height := pyInt ((y_max - y_min) / pixel_size)
  let xoffE := pyInt ((x_min - e.gt0) / e.gt1)
  let yoffE := pyInt ((y_max - e.gt3) / e.gt5)
  let xoffP := pyInt ((x_min - p.gt0) / p.gt1)
  let yoffP := pyInt ((y_max - p.gt3) / p.gt5)
  let existing_data : ℕ → ℕ → ℚ := fun i j => e.band (yoffE + i) (xoffE + j)
  let proposed_data : ℕ → ℕ → ℚ := fun i j => p.band (yoffP + i) (xoffP + j)
  let difference : ℕ → ℕ → ℚ := fun i j => proposed_data i j - existing_data i j
  let cell_area := pixel_size * pixel_size
  let cut := (∑ i ∈ Finset.range height.toNat, ∑ j ∈ Finset.range width.toNat,
      if difference i j < 0 then difference i j else 0) * cell_area / 27
  let fill := (∑ i ∈ Finset.range height.toNat, ∑ j ∈ Finset.range width.toNat,
      if 0 < difference i j then difference i j else 0) * cell_area / 27
  { pixelSize := pixel_size
    xMin := x_min
    yMax := y_max
    xMax := x_max
    yMin := y_min
    width := width
    height := height
    outGt := (x_min, pixel_size, 0, y_max, 0, -pixel_size)
    outProj := e.proj
    existingData := existing_data
    proposedData := proposed_data
    difference := difference
    cutVolume := cut
    fillVolume := fill
    netVolume := fill + cut }

/-- `DEMComparisonTool.processAlgorithm`: raises on CRS mismatch
(lines 24-25), otherwise runs the arithmetic core.  The source computes
`overlap = existing.extent().intersect(proposed.extent())` at line 28
but never inspects it, so no other error path exists. -/
def processAlgorithm (e p : GDALRaster) : Except ProcError DiffOutput :=
  if e.crs ≠ p.crs then .error .crsMismatch
  else .ok (diffCore e p)

/-- An axis-aligned rectangle, as `QgsRectangle` carries it. -/
structure Rect where
  xMin : ℚ
  xMax : ℚ
  yMin : ℚ
  yMax : ℚ
deriving DecidableEq

/-- The extent (bounding rectangle) of a north-up raster whose
geotransform has `gt1 > 0` and `gt5 < 0`. -/
def extent (r : GDALRaster) : Rect :=
  { xMin := r.gt0
    xMax := r.gt0 + r.gt1 * r.xsize
    yMin := r.gt3 + r.gt5 * r.ysize
    yMax := r.gt3 }

/-- Intersection of two axis-aligned rectangles
(`QgsRectangle.intersect`). -/
def rectIntersect (a b : Rect) : Rect :=
  { xMin := max a.xMin b.xMin
    xMax := min a.xMax b.xMax
    yMin := max a.yMin b.yMin
    yMax := min a.yMax b.yMax }

/-- A cell value is valid for a raster when it does not equal the
raster's nodata sentinel. -/
def validValue (r : GDALRaster) (v : ℚ) : Prop :=
  r.nodata ≠ some v

lemma pyInt_of_nonneg {q : ℚ} (h : 0 ≤ q) : pyInt q = ⌊q⌋ := by
  simp [pyInt, not_lt.mpr h]

/-- A flat existing surface at elevation 0 on a 2x2 grid of 1-unit
cells. -/
def existingFlat0 : GDALRaster :=
  { gt0 := 0, gt1 := 1, gt3 := 2, gt5 := -1, xsize := 2, ysize := 2,
    crs := "EPSG:6341", proj := "WKT", nodata := none, band := fun _ _ => 0 }

/-- A flat proposed surface at elevation 1 on the same 2x2 grid. -/
def proposedFlat1 : GDALRaster :=
  { gt0 := 0, gt1 := 1, gt3 := 2, gt5 := -1, xsize := 2, ysize := 2,
    crs := "EPSG:6341", proj := "WKT", nodata := none, band := fun _ _ => 1 }

/-- C4: the integrator computes
`cut_volume = (sum of diff over cells with diff < 0) * cell_area / 27`,
`fill_volume = (sum of diff over cells with diff > 0) * cell_area / 27`
with `cell_area` the squared common-grid resolution, and
`net_volume = fill_volume + cut_volume`, so `cut_volume ≤ 0 ≤
fill_volume` for every pair of input rasters; on the concrete pair
existing = [[0,0],[0,0]], proposed = [[1,1],[1,1]] over a 2x2 grid of
1-unit cells the volumes are exactly `fill = 4/27`, `cut = 0`,
`net = 4/27`. -/
theorem volume_integration_formulas_and_flat_example :
    (∀ e p : GDALRaster,
      (diffCore e p).cutVolume =
        (∑ i ∈ Finset.range (diffCore e p).height.toNat,
          ∑ j ∈ Finset.range (diffCore e p).width.toNat,
            if (diffCore e p).difference i j < 0 then (diffCore e p).difference i j else 0) *
          ((diffCore e p).pixelSize * (diffCore e p).pixelSize) / 27 ∧
      (diffCore e p).fillVolume =
        (∑ i ∈ Finset.range (diffCore e p).height.toNat,
          ∑ j ∈ Finset.range (diffCore e p).width.toNat,
            if 0 < (diffCore e p).difference i j then (diffCore e p).difference i j else 0) *
          ((diffCore e p).pixelSize * (diffCore e p).pixelSize) / 27 ∧
      (diffCore e p).netVolume = (diffCore e p).fillVolume + (diffCore e p).cutVolume ∧
      (diffCore e p).cutVolume ≤ 0 ∧
      0 ≤ (diffCore e p).fillVolume) ∧
    (diffCore existingFlat0 proposedFlat1).fillVolume = 4 / 27 ∧
    (diffCore existingFlat0 proposedFlat1).cutVolume = 0 ∧
    (diffCore existingFlat0 proposedFlat1).netVolume = 4 / 27 := by
  constructor
  · intro e p
    refine ⟨rfl, rfl, rfl, ?_, ?_⟩
    · have hS : (∑ i ∈ Finset.range (diffCore e p).height.toNat,
          ∑ j ∈ Finset.range (diffCore e p).width.toNat,
            if (diffCore e p).difference i j < 0 then (diffCore e p).difference i j else 0) ≤ 0 := by
        refine Finset.sum_nonpos fun i _ => Finset.sum_nonpos fun j _ => ?_
        split
        · exact le_of_lt (by assumption)
        · exact le_refl 0
      have harea : (0 : ℚ) ≤ (diffCore e p).pixelSize * (diffCore e p).pixelSize :=
        mul_self_nonneg _
      have : (diffCore e p).cutVolume =
          (∑ i ∈ Finset.range (diffCore e p).height.toNat,
            ∑ j ∈ Finset.range (diffCore e p).width.toNat,
              if (diffCore e p).difference i j < 0 then (diffCore e p).difference i j else 0) *
            ((diffCore e p).pixelSize * (diffCore e p).pixelSize) / 27 := rfl
      rw [this]
      exact div_nonpos_of_nonpos_of_nonneg (mul_nonpos_of_nonpos_of_nonneg hS harea) (by norm_num)
    · have hS : (0 : ℚ) ≤ ∑ i ∈ Finset.range (diffCore e p).height.toNat,
          ∑ j ∈ Finset.range (diffCore e p).width.toNat,
            if 0 < (diffCore e p).difference i j then (diffCore e p).difference i j else 0 := by
        refine Finset.sum_nonneg fun i _ => Finset.sum_nonneg fun j _ => ?_
        split
        · exact le_of_lt (by assumption)
        · exact le_refl 0
      have harea : (0 : ℚ) ≤ (diffCore e p).pixelSize * (diffCore e p).pixelSize :=
        mul_self_nonneg _
      have : (diffCore e p).fillVolume =
          (∑ i ∈ Finset.range (diffCore e p).height.toNat,
            ∑ j ∈ Finset.range (diffCore e p).width.toNat,
              if 0 < (diffCore e p).difference i j then (diffCore e p).difference i j else 0) *
            ((diffCore e p).pixelSize * (diffCore e p).pixelSize) / 27 := rfl
      rw [this]
      positivity
  · refine ⟨?_, ?_, ?_⟩ <;>
      norm_num [diffCore, pyInt, existingFlat0, proposedFlat1, Finset.sum_range_succ] <;>
      norm_num [Int.toNat]

/-- A 1x1 existing raster whose single cell holds its own nodata
sentinel -9999. -/
def existingNodataCell : GDALRaster :=
  { gt0 := 0, gt1 := 1, gt3 := 1, gt5 := -1, xsize := 1, ysize := 1,
    crs := "EPSG:6341", proj := "WKT", nodata := some (-9999), band := fun _ _ => -9999 }

/-- A 1x1 proposed raster with the valid value 5 at the same cell. -/
def proposedValidCell : GDALRaster :=
  { gt0 := 0, gt1 := 1, gt3 := 1, gt5 := -1, xsize := 1, ysize := 1,
    crs := "EPSG:6341", proj := "WKT", nodata := some (-9999), band := fun _ _ => 5 }

/-- C2: evaluation showing the claim fails on the code.  At a cell that
is nodata in the existing source (sentinel -9999) and valid (5) in the
proposed source, `processAlgorithm` performs the raw subtraction
`proposed - existing`: the output difference cell holds
5 - (-9999) = 10004 — a spurious valid value, not nodata — and that
value enters the fill-volume sum, which comes out as 10004/27 instead
of excluding the undefined cell.  The source (`cut_fill_volumes.py`
lines 57-78) contains no nodata masking at all. -/
theorem nodata_cell_enters_difference_and_volume_sums :
    processAlgorithm existingNodataCell proposedValidCell =
      Except.ok (diffCore existingNodataCell proposedValidCell) ∧
    existingNodataCell.nodata = some (existingNodataCell.band 0 0) ∧
    (diffCore existingNodataCell proposedValidCell).difference 0 0 = 10004 ∧
    ¬ validValue existingNodataCell (existingNodataCell.band 0 0) ∧
    (diffCore existingNodataCell proposedValidCell).fillVolume = 10004 / 27 ∧
    (diffCore existingNodataCell proposedValidCell).fillVolume ≠ 0 := by
  refine ⟨?_, rfl, ?_, ?_, ?_, ?_⟩
  · simp [processAlgorithm, existingNodataCell, proposedValidCell]
  · norm_num [diffCore, pyInt, existingNodataCell, proposedValidCell]
  · simp [validValue, existingNodataCell]
  · norm_num [diffCore, pyInt, existingNodataCell, proposedValidCell,
      Finset.sum_range_succ]
  · norm_num [diffCore, pyInt, existingNodataCell, proposedValidCell,
      Finset.sum_range_succ]

/-- A 10x10 existing raster covering x in [0,10]. -/
def existingWest : GDALRaster :=
  { gt0 := 0, gt1 := 1, gt3 := 10, gt5 := -1, xsize := 10, ysize := 10,
    crs := "EPSG:6341", proj := "WKT", nodata := none, band := fun _ _ => 0 }

/-- A 10x10 proposed raster covering x in [20,30]: disjoint from
`existingWest`. -/
def proposedFarEast : GDALRaster :=
  { gt0 := 20, gt1 := 1, gt3 := 10, gt5 := -1, xsize := 10, ysize := 10,
    crs := "EPSG:6341", proj := "WKT", nodata := none, band := fun _ _ => 0 }

/-- C5: evaluation showing the claim fails on the code.  The algorithm
never returns a `noOverlap` error for any pair of inputs (its only
error path is the CRS mismatch at lines 24-25; the intersection
computed at line 28 is never inspected), and on the concrete disjoint
pair above it proceeds to produce an output whose width is the negative
number -10, which it would pass to `gdal.Create`. -/
theorem no_overlap_check_is_never_performed :
    (∀ e p : GDALRaster, processAlgorithm e p ≠ Except.error ProcError.noOverlap) ∧
    rectIntersect (extent existingWest) (extent proposedFarEast) =
      { xMin := 20, xMax := 10, yMin := 0, yMax := 10 } ∧
    processAlgorithm existingWest proposedFarEast =
      Except.ok (diffCore existingWest proposedFarEast) ∧
    (diffCore existingWest proposedFarEast).width = -10 := by
  refine ⟨?_, ?_, ?_, ?_⟩
  · intro e p
    unfold processAlgorithm
    split
    · simp
    · simp
  · norm_num [rectIntersect, extent, existingWest, proposedFarEast]
  · simp [processAlgorithm, existingWest, proposedFarEast]
  · norm_num [diffCore, pyInt, existingWest, proposedFarEast]

/-- C7: on CRS-matching north-up inputs, the common grid is chosen
with resolution equal to the minimum of the two sources' pixel sizes
and overlap rectangle equal to the intersection of the two extents,
and every difference cell — in particular every valid cell pair —
equals proposed minus existing at that cell. -/
theorem common_grid_selection_and_difference (e p : GDALRaster)
    (he1 : 0 < e.gt1) (hp1 : 0 < p.gt1) :
    (diffCore e p).pixelSize = min e.gt1 p.gt1 ∧
    (diffCore e p).xMin = (rectIntersect (extent e) (extent p)).xMin ∧
    (diffCore e p).xMax = (rectIntersect (extent e) (extent p)).xMax ∧
    (diffCore e p).yMin = (rectIntersect (extent e) (extent p)).yMin ∧
    (diffCore e p).yMax = (rectIntersect (extent e) (extent p)).yMax ∧
    (∀ i j : ℕ, validValue e ((diffCore e p).existingData i j) →
      validValue p ((diffCore e p).proposedData i j) →
      (diffCore e p).difference i j =
        (diffCore e p).proposedData i j - (diffCore e p).existingData i j) := by
  refine ⟨?_, rfl, rfl, rfl, rfl, fun i j _ _ => rfl⟩
  show min |e.gt1| |p.gt1| = min e.gt1 p.gt1
  rw [abs_of_pos he1, abs_of_pos hp1]

/-- Concrete raster for the C7/C9 witnesses: pixel size 1, extent
[0,10] x [0,10]. -/
def existingGrid1 : GDALRaster :=
  { gt0 := 0, gt1 := 1, gt3 := 10, gt5 := -1, xsize := 10, ysize := 10,
    crs := "EPSG:6341", proj := "WKT", nodata := some (-9999), band := fun _ _ => 3 }

/-- Second concrete raster for the C7/C9 witnesses: pixel size 2,
offset by a half pixel so the overlap is not a whole multiple of the
common resolution. -/
def proposedGrid2 : GDALRaster :=
  { gt0 := 1/2, gt1 := 2, gt3 := 10, gt5 := -2, xsize := 5, ysize := 5,
    crs := "EPSG:6341", proj := "WKT", nodata := some (-9999), band := fun _ _ => 7 }

/-- Witness for C7: the hypotheses hold at the concrete pair and the
conclusions evaluate there. -/
theorem common_grid_selection_and_difference_witness :
    (diffCore existingGrid1 proposedGrid2).pixelSize =
      min existingGrid1.gt1 proposedGrid2.gt1 ∧
    (diffCore existingGrid1 proposedGrid2).xMin =
      (rectIntersect (extent existingGrid1) (extent proposedGrid2)).xMin ∧
    (diffCore existingGrid1 proposedGrid2).xMax =
      (rectIntersect (extent existingGrid1) (extent proposedGrid2)).xMax ∧
    (diffCore existingGrid1 proposedGrid2).yMin =
      (rectIntersect (extent existingGrid1) (extent proposedGrid2)).yMin ∧
    (diffCore existingGrid1 proposedGrid2).yMax =
      (rectIntersect (extent existingGrid1) (extent proposedGrid2)).yMax ∧
    (∀ i j : ℕ,
      validValue existingGrid1 ((diffCore existingGrid1 proposedGrid2).existingData i j) →
      validValue proposedGrid2 ((diffCore existingGrid1 proposedGrid2).proposedData i j) →
      (diffCore existingGrid1 proposedGrid2).difference i j =
        (diffCore existingGrid1 proposedGrid2).proposedData i j -
          (diffCore existingGrid1 proposedGrid2).existingData i j) :=
  common_grid_selection_and_difference existingGrid1 proposedGrid2
    (by norm_num [existingGrid1]) (by norm_num [proposedGrid2])

lemma pyInt_div_nonneg_eq_floor {a ps : ℚ} (hps : 0 < ps) (ha : 0 < a) :
    pyInt (a / ps) = ⌊a / ps⌋ :=
  pyInt_of_nonneg (div_nonneg ha.le hps.le)

lemma pyInt_div_mul_lt_of_not_mult {a ps : ℚ} (hps : 0 < ps) (ha : 0 < a)
    (hk : ¬ ∃ k : ℤ, a = k * ps) : (pyInt (a / ps) : ℚ) * ps < a := by
  rw [pyInt_div_nonneg_eq_floor hps ha]
  have hle : (⌊a / ps⌋ : ℚ) ≤ a / ps := Int.floor_le _
  have hne : (⌊a / ps⌋ : ℚ) ≠ a / ps := by
    intro heq
    exact hk ⟨⌊a / ps⌋, by rw [heq, div_mul_cancel₀ _ hps.ne']⟩
  calc (⌊a / ps⌋ : ℚ) * ps < (a / ps) * ps :=
        mul_lt_mul_of_pos_right (lt_of_le_of_ne hle hne) hps
    _ = a := div_mul_cancel₀ _ hps.ne'

lemma pyInt_div_eq_zero_of_lt {a ps : ℚ} (hps : 0 < ps) (ha : 0 < a)
    (hlt : a < ps) : pyInt (a / ps) = 0 := by
  rw [pyInt_div_nonneg_eq_floor hps ha]
  exact Int.floor_eq_zero_iff.mpr
    ⟨div_nonneg ha.le hps.le, (div_lt_one hps).mpr hlt⟩

/-- C9: for positive-area overlaps the output dimensions are the
integer-truncated quotients `int((x_max - x_min)/pixel_size)` and
`int((y_max - y_min)/pixel_size)` (floors, since the quotients are
nonnegative), the output grid is anchored at the overlap's top-left
corner with the existing raster's projection, a non-multiple overlap
is covered strictly short of the full intersection, and an overlap
narrower than one pixel yields a zero dimension. -/
theorem output_grid_truncation_and_anchoring (e p : GDALRaster)
    (he1 : 0 < e.gt1) (hp1 : 0 < p.gt1)
    (hx : (diffCore e p).xMin < (diffCore e p).xMax)
    (hy : (diffCore e p).yMin < (diffCore e p).yMax) :
    (diffCore e p).width =
      ⌊((diffCore e p).xMax - (diffCore e p).xMin) / (diffCore e p).pixelSize⌋ ∧
    (diffCore e p).height =
      ⌊((diffCore e p).yMax - (diffCore e p).yMin) / (diffCore e p).pixelSize⌋ ∧
    (diffCore e p).outGt =
      ((diffCore e p).xMin, (diffCore e p).pixelSize, 0,
        (diffCore e p).yMax, 0, -(diffCore e p).pixelSize) ∧
    (diffCore e p).outProj = e.proj ∧
    ((¬ ∃ k : ℤ, (diffCore e p).xMax - (diffCore e p).xMin =
        k * (diffCore e p).pixelSize) →
      ((diffCore e p).width : ℚ) * (diffCore e p).pixelSize <
        (diffCore e p).xMax - (diffCore e p).xMin) ∧
    ((diffCore e p).xMax - (diffCore e p).xMin < (diffCore e p).pixelSize →
      (diffCore e p).width = 0) ∧
    ((diffCore e p).yMax - (diffCore e p).yMin < (diffCore e p).pixelSize →
      (diffCore e p).height = 0) := by
  have hps : (0 : ℚ) < (diffCore e p).pixelSize :=
    lt_min (abs_pos.mpr he1.ne') (abs_pos.mpr hp1.ne')
  have hxa : (0 : ℚ) < (diffCore e p).xMax - (diffCore e p).xMin := sub_pos.mpr hx
  have hya : (0 : ℚ) < (diffCore e p).yMax - (diffCore e p).yMin := sub_pos.mpr hy
  refine ⟨pyInt_div_nonneg_eq_floor hps hxa, pyInt_div_nonneg_eq_floor hps hya,
    rfl, rfl, ?_, ?_, ?_⟩
  · intro hk
    exact pyInt_div_mul_lt_of_not_mult hps hxa hk
  · intro hlt
    exact pyInt_div_eq_zero_of_lt hps hxa hlt
  · intro hlt
    exact pyInt_div_eq_zero_of_lt hps hya hlt

/-- Witness for C9 at the concrete pair `existingGrid1`,
`proposedGrid2`: the overlap is [1/2, 10] x [0, 10] on a unit grid, so
the hypotheses hold. -/
theorem output_grid_truncation_and_anchoring_witness :
    (diffCore existingGrid1 proposedGrid2).width =
      ⌊((diffCore existingGrid1 proposedGrid2).xMax -
          (diffCore existingGrid1 proposedGrid2).xMin) /
        (diffCore existingGrid1 proposedGrid2).pixelSize⌋ ∧
    (diffCore existingGrid1 proposedGrid2).height =
      ⌊((diffCore existingGrid1 proposedGrid2).yMax -
          (diffCore existingGrid1 proposedGrid2).yMin) /
        (diffCore existingGrid1 proposedGrid2).pixelSize⌋ ∧
    (diffCore existingGrid1 proposedGrid2).outGt =
      ((diffCore existingGrid1 proposedGrid2).xMin,
        (diffCore existingGrid1 proposedGrid2).pixelSize, 0,
        (diffCore existingGrid1 proposedGrid2).yMax, 0,
        -(diffCore existingGrid1 proposedGrid2).pixelSize) ∧
    (diffCore existingGrid1 proposedGrid2).outProj = existingGrid1.proj ∧
    ((¬ ∃ k : ℤ, (diffCore existingGrid1 proposedGrid2).xMax -
        (diffCore existingGrid1 proposedGrid2).xMin =
          k * (diffCore existingGrid1 proposedGrid2).pixelSize) →
      ((diffCore existingGrid1 proposedGrid2).width : ℚ) *
          (diffCore existingGrid1 proposedGrid2).pixelSize <
        (diffCore existingGrid1 proposedGrid2).xMax -
          (diffCore existingGrid1 proposedGrid2).xMin) ∧
    ((diffCore existingGrid1 proposedGrid2).xMax -
        (diffCore existingGrid1 proposedGrid2).xMin <
        (diffCore existingGrid1 proposedGrid2).pixelSize →
      (diffCore existingGrid1 proposedGrid2).width = 0) ∧
    ((diffCore existingGrid1 proposedGrid2).yMax -
        (diffCore existingGrid1 proposedGrid2).yMin <
        (diffCore existingGrid1 proposedGrid2).pixelSize →
      (diffCore existingGrid1 proposedGrid2).height = 0) :=
  output_grid_truncation_and_anchoring existingGrid1 proposedGrid2
    (by norm_num [existingGrid1]) (by norm_num [proposedGrid2])
    (by norm_num [diffCore, existingGrid1, proposedGrid2])
    (by norm_num [diffCore, existingGrid1, proposedGrid2])

/-- The conversion factor of `convert_dem_to_feet`
(`usgs_lidar_download.py` line 1026). -/
def METERS_TO_FEET : ℚ := 328084 / 100000

/-- The chunk origins `range(0, size, 1024)` of the conversion loop
(`usgs_lidar_download.py` lines 1043 and 1050). -/
def chunkStarts (size : ℕ) : List ℕ :=
  (List.range ((size + 1023) / 1024)).map (· * 1024)

/-- The chunk length computed at lines 1045-1048 / 1052-1055: a full
1024 except for the final partial chunk. -/
def chunkLen (size start : ℕ) : ℕ :=
  if start + 1024 < size then 1024 else size - start

/-- One `ReadAsArray`/multiply/`WriteArray` round trip on the window
with origin `(x, y)` and shape `cols x rows` (lines 1057-1065): every
cell of the window is multiplied by the factor, cells outside are left
as they were. -/
def applyWindow (f : ℚ) (x y cols rows : ℕ) (g : ℕ → ℕ → ℚ) : ℕ → ℕ → ℚ :=
  fun i j => if y ≤ i ∧ i < y + rows ∧ x ≤ j ∧ j < x + cols then g i j * f else g i j

/-- The full chunked loop of `convert_dem_to_feet` over band 1
(lines 1043-1065): outer loop over row chunks, inner loop over column
chunks. -/
def convertBand (f : ℚ) (xsize ysize : ℕ) (g : ℕ → ℕ → ℚ) : ℕ → ℕ → ℚ :=
  (chunkStarts ysize).foldl (fun g0 y =>
    (chunkStarts xsize).foldl (fun g1 x =>
      applyWindow f x y (chunkLen xsize x) (chunkLen ysize y) g1) g0) g

/-- A multi-band raster file as `convert_dem_to_feet` opens it:
dimensions, geotransform, projection, nodata metadata, and the list of
bands (band 1 first), each a grid of samples indexed `row col`. -/
structure BandedRaster where
  xsize : ℕ
  ysize : ℕ
  gt : ℚ × ℚ × ℚ × ℚ × ℚ × ℚ
  proj : String
  nodata : Option ℚ
  bands : List (ℕ → ℕ → ℚ)

/-- `convert_dem_to_feet` (`usgs_lidar_download.py` lines 1023-1071):
fetches band 1 (`ds.GetRasterBand(1)`, line 1034) and rewrites it
through the chunked loop; no other part of the dataset is touched.
The source applies `data * METERS_TO_FEET` to every cell it reads —
there is no nodata masking anywhere in the function. -/
def convert_dem_to_feet (r : BandedRaster) : BandedRaster :=
  { r with
    bands :=
      match r.bands with
      | [] => []
      | b :: rest => convertBand METERS_TO_FEET r.xsize r.ysize b :: rest }

/-- A 1x1 DEM whose single cell holds the nodata sentinel -9999. -/
def nodataDem : BandedRaster :=
  { xsize := 1, ysize := 1, gt := (0, 1, 0, 1, 0, -1), proj := "WKT",
    nodata := some (-9999), bands := [fun _ _ => -9999] }

/-- C1: evaluation showing the claim fails on the code.  On a 1x1
raster whose only cell is nodata (-9999), `convert_dem_to_feet`
multiplies the sentinel by the factor like any other cell: the cell
comes out as -9999 * 3.28084, a spurious valid value, instead of being
left untouched.  The source has no nodata handling at all
(`usgs_lidar_download.py` lines 1057-1065). -/
theorem conversion_multiplies_nodata_sentinel :
    nodataDem.nodata = some (-9999) ∧
    ∃ b, (convert_dem_to_feet nodataDem).bands = [b] ∧
      b 0 0 = -9999 * METERS_TO_FEET ∧
      b 0 0 ≠ -9999 := by
  refine ⟨rfl, convertBand METERS_TO_FEET 1 1 (fun _ _ => -9999), rfl, ?_, ?_⟩
  · norm_num [convertBand, chunkStarts, chunkLen, applyWindow, List.range_succ]
  · norm_num [convertBand, chunkStarts, chunkLen, applyWindow, List.range_succ,
      METERS_TO_FEET]

/-- C10: the unit conversion pass touches only band 1: for every
raster, the dimensions, geotransform, projection and nodata metadata
are unchanged, the band count is unchanged, and every band other than
band 1 (the tail of the band list) is unchanged. -/
theorem conversion_touches_only_band_one (r : BandedRaster) :
    (convert_dem_to_feet r).xsize = r.xsize ∧
    (convert_dem_to_feet r).ysize = r.ysize ∧
    (convert_dem_to_feet r).gt = r.gt ∧
    (convert_dem_to_feet r).proj = r.proj ∧
    (convert_dem_to_feet r).nodata = r.nodata ∧
    (convert_dem_to_feet r).bands.tail = r.bands.tail ∧
    (convert_dem_to_feet r).bands.length = r.bands.length := by
  obtain ⟨xs, ys, gt, proj, nd, bands⟩ := r
  cases bands <;> simp [convert_dem_to_feet]

/-- A member tile of the virtual mosaic: integer pixel origin, pixel
dimensions, and its samples. -/
structure MTile where
  x0 : ℤ
  y0 : ℤ
  w : ℕ
  h : ℕ
  val : ℤ → ℤ → ℚ

/-- Whether a tile covers the output pixel `(x, y)`. -/
def covers (t : MTile) (x y : ℤ) : Prop :=
  t.x0 ≤ x ∧ x < t.x0 + t.w ∧ t.y0 ≤ y ∧ y < t.y0 + t.h

instance (t : MTile) (x y : ℤ) : Decidable (covers t x y) := by
  unfold covers
  infer_instance

/-- Modelled from the spec: the source-order overlay compositing that
`gdal.BuildVRT` performs on the ordered tile list passed at
`usgs_lidar_download.py` lines 601-605 (the compositing itself lives in
the external GDAL library, not in this repository).  Tiles are painted
onto an empty canvas in list order, each tile writing every pixel it
covers, so later entries overwrite earlier ones — the spec's stated
de-facto contract of virtual-mosaic overlay composition. -/
def composite (ts : List MTile) (x y : ℤ) : Option ℚ :=
  ts.foldl (fun acc t => if covers t x y then some (t.val x y) else acc) none

lemma composite_foldl_of_no_cover {x y : ℤ} :
    ∀ (ts : List MTile) (acc : Option ℚ), (∀ u ∈ ts, ¬ covers u x y) →
      ts.foldl (fun acc t => if covers t x y then some (t.val x y) else acc) acc = acc := by
  intro ts
  induction ts with
  | nil => intro acc _; rfl
  | cons u us ih =>
      intro acc h
      have hu : ¬ covers u x y := h u (List.mem_cons_self u us)
      simp only [List.foldl_cons, if_neg hu]
      exact ih acc fun v hv => h v (List.mem_cons_of_mem u hv)

/-- C3: in the composited mosaic, the pixel value at any covered pixel
is the value of the LAST covering tile in the input ordering — later
entries overwrite earlier ones; in particular for two overlapping
tiles A then B, the result is B's value, and never A's when the two
values differ. -/
theorem last_listed_tile_wins_on_overlap :
    (∀ (ts1 ts2 : List MTile) (t : MTile) (x y : ℤ), covers t x y →
      (∀ u ∈ ts2, ¬ covers u x y) →
      composite (ts1 ++ t :: ts2) x y = some (t.val x y)) ∧
    (∀ (A B : MTile) (x y : ℤ), covers A x y → covers B x y →
      composite [A, B] x y = some (B.val x y)) ∧
    (∀ (A B : MTile) (x y : ℤ), covers A x y → covers B x y →
      B.val x y ≠ A.val x y → composite [A, B] x y ≠ some (A.val x y)) := by
  have main : ∀ (ts1 ts2 : List MTile) (t : MTile) (x y : ℤ), covers t x y →
      (∀ u ∈ ts2, ¬ covers u x y) →
      composite (ts1 ++ t :: ts2) x y = some (t.val x y) := by
    intro ts1 ts2 t x y hc hnc
    unfold composite
    rw [List.foldl_append, List.foldl_cons, if_pos hc]
    exact composite_foldl_of_no_cover ts2 _ hnc
  refine ⟨main, ?_, ?_⟩
  · intro A B x y hA hB
    exact main [A] [] B x y hB (by simp)
  · intro A B x y hA hB hne
    have h2 : composite [A, B] x y = some (B.val x y) := main [A] [] B x y hB (by simp)
    rw [h2]
    simp [hne]

/-- First tile of the 2x1 synthetic witness pair: pixels (0,0) and
(1,0), constant value 1. -/
def tileA : MTile :=
  { x0 := 0, y0 := 0, w := 2, h := 1, val := fun _ _ => 1 }

/-- Second tile of the witness pair, listed after `tileA` and
overlapping it at pixel (1,0): pixels (1,0) and (2,0), constant
value 2. -/
def tileB : MTile :=
  { x0 := 1, y0 := 0, w := 2, h := 1, val := fun _ _ => 2 }

/-- Witness for C3: at the shared pixel (1,0) of the 2x1 tile pair,
the composite equals B's value 2 and is not A's value 1. -/
theorem last_listed_tile_wins_on_overlap_witness :
    composite [tileA, tileB] 1 0 = some (tileB.val 1 0) ∧
    composite [tileA, tileB] 1 0 ≠ some (tileA.val 1 0) :=
  ⟨last_listed_tile_wins_on_overlap.2.1 tileA tileB 1 0
      (by constructor <;> norm_num [tileA, covers])
      (by constructor <;> norm_num [tileB, covers])
      |>.trans rfl,
    last_listed_tile_wins_on_overlap.2.2 tileA tileB 1 0
      (by constructor <;> norm_num [tileA, covers])
      (by constructor <;> norm_num [tileB, covers])
      (by norm_num [tileA, tileB])⟩

/-- One entry of the `results` list fed to `create_mosaic`
(`usgs_lidar_download.py` lines 548-552): the fields the mosaic code
reads.  `local_path` is `None` when the download failed. -/
structure TileResult where
  local_path : Option String
  status : String
  dem_gsd_meters : ℚ

/-- Python truthiness of the `local_path` field: `None` and the empty
string are falsy. -/
def pyTruthy (s : Option String) : Bool :=
  match s with
  | none => false
  | some str => str != ""

/-- The filter at `usgs_lidar_download.py` line 576:
`if result['local_path'] and result['status'] != 'error'`. -/
def validTile (r : TileResult) : Bool :=
  pyTruthy r.local_path && (r.status != "error")

/-- The path a valid result contributes to its group. -/
def pathOf (r : TileResult) : String :=
  r.local_path.getD ""

/-- One `tiles_by_gsd[gsd].append(path)` step (lines 577-580), on an
insertion-ordered association list as Python dicts behave: append to
the existing key's list, or add a new key at the end. -/
def addTile : List (ℚ × List String) → ℚ → String → List (ℚ × List String)
  | [], g, p => [(g, [p])]
  | (g', ps) :: rest, g, p =>
      if g' = g then (g', ps ++ [p]) :: rest
      else (g', ps) :: addTile rest g p

/-- The grouping loop of `create_mosaic` (lines 574-580), processing
the results in order with accumulator `m`. -/
def tilesByGsdAux : List (ℚ × List String) → List TileResult → List (ℚ × List String)
  | m, [] => m
  | m, r :: rs =>
      tilesByGsdAux (if validTile r then addTile m r.dem_gsd_meters (pathOf r) else m) rs

/-- `tiles_by_gsd` as built by `create_mosaic` lines 573-580. -/
def tilesByGsd (results : List TileResult) : List (ℚ × List String) :=
  tilesByGsdAux [] results

/-- `sorted_gsds = sorted(tiles_by_gsd.keys())` (line 586): the group
keys in ascending numeric order, finest (smallest GSD) first. -/
def sortedGsds (results : List TileResult) : List ℚ :=
  List.insertionSort (· ≤ ·) ((tilesByGsd results).map Prod.fst)

/-- Dictionary lookup `tiles_by_gsd[gsd]`. -/
def lookupGsd (m : List (ℚ × List String)) (g : ℚ) : List String :=
  match m.find? (fun e => decide (e.1 = g)) with
  | some e => e.2
  | none => []

/-- The tile selection of `create_mosaic` (lines 582-595): raise when
no valid tiles exist, otherwise mosaic exactly the tile paths of the
first (finest) resolution group, `tiles_by_gsd[sorted_gsds[0]]`;
coarser groups are never read again. -/
def finestGroupPaths (results : List TileResult) : Except String (List String) :=
  if tilesByGsd results = [] then Except.error "No valid tiles to mosaic"
  else Except.ok (lookupGsd (tilesByGsd results) ((sortedGsds results).headI))

lemma addTile_cons_same (g : ℚ) (ps : List String) (rest : List (ℚ × List String))
    (p : String) : addTile ((g, ps) :: rest) g p = (g, ps ++ [p]) :: rest := by
  simp [addTile]

lemma addTile_cons_ne (g g' : ℚ) (ps : List String) (rest : List (ℚ × List String))
    (p : String) (h : g' ≠ g) :
    addTile ((g', ps) :: rest) g p = (g', ps) :: addTile rest g p := by
  simp [addTile, h]

lemma lookup_nil (g : ℚ) : lookupGsd [] g = [] := rfl

lemma lookup_cons (g0 : ℚ) (ps : List String) (rest : List (ℚ × List String)) (g' : ℚ) :
    lookupGsd ((g0, ps) :: rest) g' = if g0 = g' then ps else lookupGsd rest g' := by
  unfold lookupGsd
  by_cases h : g0 = g'
  · rw [List.find?_cons_of_pos _ (by simp [h]), if_pos h]
  · rw [List.find?_cons_of_neg _ (by simp [h]), if_neg h]

lemma lookup_addTile_same (m : List (ℚ × List String)) (g : ℚ) (p : String) :
    lookupGsd (addTile m g p) g = lookupGsd m g ++ [p] := by
  induction m with
  | nil => simp [addTile, lookup_cons, lookup_nil]
  | cons e rest ih =>
      obtain ⟨g', ps⟩ := e
      by_cases hg : g' = g
      · subst hg
        rw [addTile_cons_same, lookup_cons, lookup_cons, if_pos rfl, if_pos rfl]
      · rw [addTile_cons_ne _ _ _ _ _ hg, lookup_cons, lookup_cons, if_neg hg, if_neg hg, ih]

lemma lookup_addTile_ne (m : List (ℚ × List String)) (g g' : ℚ) (p : String)
    (hne : g' ≠ g) : lookupGsd (addTile m g p) g' = lookupGsd m g' := by
  induction m with
  | nil => simp [addTile, lookup_cons, lookup_nil, Ne.symm hne]
  | cons e rest ih =>
      obtain ⟨g0, ps⟩ := e
      by_cases hg : g0 = g
      · subst hg
        rw [addTile_cons_same, lookup_cons, lookup_cons,
          if_neg (Ne.symm hne), if_neg (Ne.symm hne)]
      · rw [addTile_cons_ne _ _ _ _ _ hg, lookup_cons, lookup_cons, ih]

lemma keys_addTile (m : List (ℚ × List String)) (g : ℚ) (p : String) :
    (addTile m g p).map Prod.fst =
      if g ∈ m.map Prod.fst then m.map Prod.fst else m.map Prod.fst ++ [g] := by
  induction m with
  | nil => simp [addTile]
  | cons e rest ih =>
      obtain ⟨g', ps⟩ := e
      by_cases hg : g' = g
      · subst hg
        rw [addTile_cons_same]
        simp
      · rw [addTile_cons_ne _ _ _ _ _ hg]
        simp only [List.map_cons, ih]
        by_cases hmem : g ∈ rest.map Prod.fst <;>
          simp [hmem, Ne.symm hg]

lemma flatten_addTile (m : List (ℚ × List String)) (g : ℚ) (p : String) :
    List.Perm ((addTile m g p).map Prod.snd).flatten
      ((m.map Prod.snd).flatten ++ [p]) := by
  induction m with
  | nil => simp [addTile]
  | cons e rest ih =>
      obtain ⟨g', ps⟩ := e
      by_cases hg : g' = g
      · subst hg
        rw [addTile_cons_same]
        simp only [List.map_cons, List.flatten_cons]
        rw [List.append_assoc, List.append_assoc]
        exact (List.perm_append_comm).append_left ps
      · rw [addTile_cons_ne _ _ _ _ _ hg]
        simp only [List.map_cons, List.flatten_cons]
        rw [List.append_assoc]
        exact ih.append_left ps

lemma mem_keys_addTile (m : List (ℚ × List String)) (g g' : ℚ) (p : String) :
    g' ∈ (addTile m g p).map Prod.fst ↔ g' ∈ m.map Prod.fst ∨ g' = g := by
  rw [keys_addTile]
  by_cases h : g ∈ m.map Prod.fst
  · rw [if_pos h]
    exact ⟨Or.inl, fun h1 => h1.elim id fun he => he ▸ h⟩
  · rw [if_neg h]
    simp

lemma nodup_keys_addTile (m : List (ℚ × List String)) (g : ℚ) (p : String)
    (h : (m.map Prod.fst).Nodup) : ((addTile m g p).map Prod.fst).Nodup := by
  rw [keys_addTile]
  by_cases hm : g ∈ m.map Prod.fst
  · rw [if_pos hm]
    exact h
  · rw [if_neg hm]
    simp [List.nodup_append, h, hm]

lemma tilesByGsdAux_cons (m : List (ℚ × List String)) (r : TileResult)
    (rs : List TileResult) :
    tilesByGsdAux m (r :: rs) =
      tilesByGsdAux (if validTile r then addTile m r.dem_gsd_meters (pathOf r) else m) rs :=
  rfl

lemma mem_lookup_tilesByGsdAux (rs : List TileResult) :
    ∀ (m : List (ℚ × List String)) (g : ℚ) (q : String),
      q ∈ lookupGsd (tilesByGsdAux m rs) g ↔
        q ∈ lookupGsd m g ∨
          ∃ r ∈ rs, validTile r ∧ pathOf r = q ∧ r.dem_gsd_meters = g := by
  induction rs with
  | nil => intro m g q; simp [tilesByGsdAux]
  | cons r rs ih =>
      intro m g q
      rw [tilesByGsdAux_cons]
      cases hvr : validTile r with
      | false =>
          rw [if_neg (by simp), ih]
          simp [hvr]
      | true =>
          rw [if_pos rfl, ih]
          by_cases hg : r.dem_gsd_meters = g
          · rw [hg, lookup_addTile_same]
            simp only [List.mem_append, List.mem_singleton, List.mem_cons,
              exists_eq_or_imp, hvr, hg, true_and]
            tauto
          · rw [lookup_addTile_ne _ _ _ _ (Ne.symm hg)]
            simp only [List.mem_cons, exists_eq_or_imp, hvr, hg, true_and]
            tauto

lemma mem_keys_tilesByGsdAux (rs : List TileResult) :
    ∀ (m : List (ℚ × List String)) (g : ℚ),
      g ∈ (tilesByGsdAux m rs).map Prod.fst ↔
        g ∈ m.map Prod.fst ∨ ∃ r ∈ rs, validTile r ∧ r.dem_gsd_meters = g := by
  induction rs with
  | nil => intro m g; simp [tilesByGsdAux]
  | cons r rs ih =>
      intro m g
      rw [tilesByGsdAux_cons]
      cases hvr : validTile r with
      | false =>
          rw [if_neg (by simp), ih]
          simp [hvr]
      | true =>
          rw [if_pos rfl, ih, mem_keys_addTile]
          simp only [List.mem_cons]
          constructor
          · rintro ((h1 | h1) | h2)
            · exact Or.inl h1
            · exact Or.inr ⟨r, Or.inl rfl, hvr, h1.symm⟩
            · obtain ⟨r', hr', hv', hg'⟩ := h2
              exact Or.inr ⟨r', Or.inr hr', hv', hg'⟩
          · rintro (h1 | ⟨r', hr' | hr', hv', hg'⟩)
            · exact Or.inl (Or.inl h1)
            · exact Or.inl (Or.inr (hr' ▸ hg'.symm))
            · exact Or.inr ⟨r', hr', hv', hg'⟩

lemma nodup_keys_tilesByGsdAux (rs : List TileResult) :
    ∀ m : List (ℚ × List String), (m.map Prod.fst).Nodup →
      ((tilesByGsdAux m rs).map Prod.fst).Nodup := by
  induction rs with
  | nil => intro m h; exact h
  | cons r rs ih =>
      intro m h
      rw [tilesByGsdAux_cons]
      cases hvr : validTile r with
      | false => rw [if_neg (by simp)]; exact ih m h
      | true => rw [if_pos rfl]; exact ih _ (nodup_keys_addTile m _ _ h)

lemma flatten_tilesByGsdAux (rs : List TileResult) :
    ∀ m : List (ℚ × List String),
      List.Perm ((tilesByGsdAux m rs).map Prod.snd).flatten
        ((m.map Prod.snd).flatten ++ (rs.filter (fun r => validTile r)).map pathOf) := by
  induction rs with
  | nil => intro m; simp [tilesByGsdAux]
  | cons r rs ih =>
      intro m
      rw [tilesByGsdAux_cons]
      cases hvr : validTile r with
      | false =>
          rw [if_neg (by simp), List.filter_cons_of_neg (by simp [hvr])]
          exact ih m
      | true =>
          rw [if_pos rfl, List.filter_cons_of_pos (by simp [hvr])]
          refine (ih _).trans ?_
          refine ((flatten_addTile m r.dem_gsd_meters (pathOf r)).append_right _).trans ?_
          rw [List.append_assoc]
          rfl

lemma headI_le_of_sorted {l : List ℚ} (hs : l.Sorted (· ≤ ·)) :
    ∀ a ∈ l, l.headI ≤ a := by
  cases l with
  | nil => intro a ha; simp at ha
  | cons x xs =>
      intro a ha
      rcases List.mem_cons.mp ha with rfl | h
      · exact le_refl _
      · exact (List.pairwise_cons.mp hs).1 a h

/-- C8: for every list of downloaded tiles (valid results), the
grouping loop partitions them: the tile paths across all groups are a
permutation of the input paths (no loss, no duplication), each tile's
path lands in the group keyed by its own GSD, every grouped path comes
from an input tile with that group's GSD, group keys are pairwise
distinct (each tile is in exactly one group), and the key order
`sorted_gsds` is sorted ascending (finest first) and ranges over
exactly the group keys. -/
theorem grouper_partitions_tiles (results : List TileResult)
    (hv : ∀ r ∈ results, validTile r = true) :
    List.Perm ((tilesByGsd results).map Prod.snd).flatten (results.map pathOf) ∧
    (∀ r ∈ results, pathOf r ∈ lookupGsd (tilesByGsd results) r.dem_gsd_meters) ∧
    (∀ g q, q ∈ lookupGsd (tilesByGsd results) g →
      ∃ r ∈ results, pathOf r = q ∧ r.dem_gsd_meters = g) ∧
    ((tilesByGsd results).map Prod.fst).Nodup ∧
    (sortedGsds results).Sorted (· ≤ ·) ∧
    List.Perm (sortedGsds results) ((tilesByGsd results).map Prod.fst) := by
  refine ⟨?_, ?_, ?_, ?_, ?_, ?_⟩
  · have h := flatten_tilesByGsdAux results []
    rw [List.filter_eq_self.mpr hv] at h
    simpa [tilesByGsd] using h
  · intro r hr
    exact (mem_lookup_tilesByGsdAux results [] r.dem_gsd_meters (pathOf r)).mpr
      (Or.inr ⟨r, hr, hv r hr, rfl, rfl⟩)
  · intro g q hq
    rcases (mem_lookup_tilesByGsdAux results [] g q).mp hq with h | ⟨r, hr, _, hp, hg⟩
    · simp [lookup_nil] at h
    · exact ⟨r, hr, hp, hg⟩
  · exact nodup_keys_tilesByGsdAux results [] (by simp)
  · exact List.sorted_insertionSort _ _
  · exact List.perm_insertionSort _ _

/-- A successfully downloaded 1 m tile. -/
def tileR1 : TileResult :=
  { local_path := some "a.tif", status := "downloaded", dem_gsd_meters := 1 }

/-- A cached half-meter tile. -/
def tileR2 : TileResult :=
  { local_path := some "b.tif", status := "exists", dem_gsd_meters := 1/2 }

/-- Another successfully downloaded 1 m tile. -/
def tileR3 : TileResult :=
  { local_path := some "c.tif", status := "downloaded", dem_gsd_meters := 1 }

/-- A mixed-resolution result list for the grouper/mosaic witnesses. -/
def sampleResults : List TileResult := [tileR1, tileR2, tileR3]

/-- Witness for C8 at the concrete three-tile result list. -/
theorem grouper_partitions_tiles_witness :
    List.Perm ((tilesByGsd sampleResults).map Prod.snd).flatten
      (sampleResults.map pathOf) ∧
    (∀ r ∈ sampleResults,
      pathOf r ∈ lookupGsd (tilesByGsd sampleResults) r.dem_gsd_meters) ∧
    (∀ g q, q ∈ lookupGsd (tilesByGsd sampleResults) g →
      ∃ r ∈ sampleResults, pathOf r = q ∧ r.dem_gsd_meters = g) ∧
    ((tilesByGsd sampleResults).map Prod.fst).Nodup ∧
    (sortedGsds sampleResults).Sorted (· ≤ ·) ∧
    List.Perm (sortedGsds sampleResults) ((tilesByGsd sampleResults).map Prod.fst) :=
  grouper_partitions_tiles sampleResults (by decide)

/-- C6: under the hypotheses that every result is a valid tile, the
result list is nonempty and tile paths are distinct, `create_mosaic`
mosaics exactly the tile paths of the finest (minimum-GSD) group:
the selection succeeds, the mosaicked group's key `sorted_gsds[0]` is a
lower bound of all tile GSDs and is attained, the selected paths are
exactly the paths of the minimum-GSD tiles, and every tile of any
coarser (strictly larger GSD) group is discarded — its path does not
reach the mosaic input. -/
theorem mosaic_uses_only_finest_resolution_group (results : List TileResult)
    (hv : ∀ r ∈ results, validTile r = true)
    (hne : results ≠ [])
    (hnd : (results.map pathOf).Nodup) :
    ∃ tps, finestGroupPaths results = Except.ok tps ∧
      (∀ r ∈ results, (sortedGsds results).headI ≤ r.dem_gsd_meters) ∧
      (∃ r ∈ results, r.dem_gsd_meters = (sortedGsds results).headI) ∧
      (∀ q ∈ tps, ∃ r ∈ results, pathOf r = q ∧
        r.dem_gsd_meters = (sortedGsds results).headI) ∧
      (∀ r ∈ results, r.dem_gsd_meters = (sortedGsds results).headI →
        pathOf r ∈ tps) ∧
      (∀ r ∈ results, (sortedGsds results).headI < r.dem_gsd_meters →
        pathOf r ∉ tps) := by
  obtain ⟨r0, hr0⟩ : ∃ r0, r0 ∈ results := by
    cases results with
    | nil => exact absurd rfl hne
    | cons a l => exact ⟨a, List.mem_cons_self a l⟩
  have hkey0 : r0.dem_gsd_meters ∈ (tilesByGsd results).map Prod.fst :=
    (mem_keys_tilesByGsdAux results [] r0.dem_gsd_meters).mpr
      (Or.inr ⟨r0, hr0, hv r0 hr0, rfl⟩)
  have hmne : tilesByGsd results ≠ [] := by
    intro h
    rw [h] at hkey0
    simp at hkey0
  have hperm : List.Perm (sortedGsds results) ((tilesByGsd results).map Prod.fst) :=
    List.perm_insertionSort _ _
  have hsorted : (sortedGsds results).Sorted (· ≤ ·) :=
    List.sorted_insertionSort _ _
  have hsne : sortedGsds results ≠ [] := by
    intro h
    rw [h] at hperm
    have : (tilesByGsd results).map Prod.fst = [] := (List.perm_nil.mp hperm.symm)
    exact hmne (List.map_eq_nil_iff.mp this)
  have hheadmem : (sortedGsds results).headI ∈ sortedGsds results := by
    cases hs : sortedGsds results with
    | nil => exact absurd hs hsne
    | cons a l => simp
  have hminkey : (sortedGsds results).headI ∈ (tilesByGsd results).map Prod.fst :=
    hperm.mem_iff.mp hheadmem
  refine ⟨lookupGsd (tilesByGsd results) ((sortedGsds results).headI), ?_, ?_, ?_, ?_, ?_, ?_⟩
  · rw [finestGroupPaths, if_neg hmne]
  · intro r hr
    have hkey : r.dem_gsd_meters ∈ (tilesByGsd results).map Prod.fst :=
      (mem_keys_tilesByGsdAux results [] r.dem_gsd_meters).mpr
        (Or.inr ⟨r, hr, hv r hr, rfl⟩)
    exact headI_le_of_sorted hsorted r.dem_gsd_meters (hperm.mem_iff.mpr hkey)
  · rcases (mem_keys_tilesByGsdAux results [] ((sortedGsds results).headI)).mp hminkey with
      h | ⟨r, hr, _, hg⟩
    · simp at h
    · exact ⟨r, hr, hg⟩
  · intro q hq
    rcases (mem_lookup_tilesByGsdAux results [] _ q).mp hq with h | ⟨r, hr, _, hp, hg⟩
    · simp [lookup_nil] at h
    · exact ⟨r, hr, hp, hg⟩
  · intro r hr hg
    exact (mem_lookup_tilesByGsdAux results [] _ (pathOf r)).mpr
      (Or.inr ⟨r, hr, hv r hr, rfl, hg⟩)
  · intro r hr hlt hmem
    rcases (mem_lookup_tilesByGsdAux results [] _ (pathOf r)).mp hmem with
      h | ⟨r', hr', _, hp', hg'⟩
    · simp [lookup_nil] at h
    · have : r' = r := List.inj_on_of_nodup_map hnd hr' hr hp'
      rw [this] at hg'
      rw [hg'] at hlt
      exact lt_irrefl _ hlt

/-- Witness for C6 at the concrete three-tile result list: the finest
group is the 1/2 m group, holding exactly `b.tif`. -/
theorem mosaic_uses_only_finest_resolution_group_witness :
    ∃ tps, finestGroupPaths sampleResults = Except.ok tps ∧
      (∀ r ∈ sampleResults, (sortedGsds sampleResults).headI ≤ r.dem_gsd_meters) ∧
      (∃ r ∈ sampleResults, r.dem_gsd_meters = (sortedGsds sampleResults).headI) ∧
      (∀ q ∈ tps, ∃ r ∈ sampleResults, pathOf r = q ∧
        r.dem_gsd_meters = (sortedGsds sampleResults).headI) ∧
      (∀ r ∈ sampleResults, r.dem_gsd_meters = (sortedGsds sampleResults).headI →
        pathOf r ∈ tps) ∧
      (∀ r ∈ sampleResults, (sortedGsds sampleResults).headI < r.dem_gsd_meters →
        pathOf r ∉ tps) :=
  mosaic_uses_only_finest_resolution_group sampleResults (by decide)
    (by simp [sampleResults]) (by decide)

end QGT
